import Mathlib

/-!
Verification development for the deduplication-and-staging subsystem of the
resume-role-player repository (src/src/dedup.py, src/src/staging.py,
src/src/kb_ingest.py).

Modelling conventions, used throughout:

* Python dicts (entries) are modelled as association lists `List (String × Value)`
  in insertion order; `dict.items()` iteration order is the list order, dict
  lookup is first-match, and dict equality (`==`) ignores order.
* Python values occurring in entries are modelled by `Value`: scalar text
  (`VStr`), ordered sequences of text (`VList`, per the data model every
  list-valued field is a sequence of text, e.g. skills), `datetime` values
  (`VTime`, as a nonnegative instant with `datetime.min` being `0`), and
  `None` (`VNone`).
* `hashlib.md5` / `hashlib.sha256` are external digests that the program only
  compares for equality; they are modelled as ideal (collision-free) digests,
  i.e. injective maps, so digest equality coincides with equality of the
  serialized canonical form actually fed to the digest.
* UTF-8 bytes of the (ASCII) serialized strings are modelled by the
  character codepoints.
* Python floats produced by `difflib.SequenceMatcher.ratio` are modelled as
  exact rationals (`Rat`).
* Raising an exception is modelled with `Except`: `.error` means the Python
  call raised, and the caller's state is unchanged (all raises in the modelled
  code occur before any mutation is persisted).
-/

attribute [local semireducible] Rat.add Rat.mul Rat.inv Rat.sub

namespace RRP

/-- Python values stored in entry fields (see spec data model: scalar text or
ordered sequences of text, plus timestamps and None). -/
inductive Value : Type
  | VStr : String → Value
  | VList : List String → Value
  | VTime : Nat → Value
  | VNone : Value
deriving DecidableEq, Repr

open Value

/-- An entry: a Python dict in insertion order, field name to value. -/
abbrev Entry : Type := List (String × Value)

/-- Dict lookup: first binding wins (a real dict has unique keys). -/
def lookupVal : Entry → String → Option Value
  | [], _ => none
  | (k, v) :: rest, key => if k = key then some v else lookupVal rest key

/-- Dict membership test for a key. -/
def hasKey (e : Entry) (k : String) : Bool := (lookupVal e k).isSome

/-- Dict assignment `d[k] = v`: replaces in place if the key exists,
otherwise appends (Python dicts keep the original position on update). -/
def dictInsert : Entry → String → Value → Entry
  | [], k, v => [(k, v)]
  | (k0, v0) :: rest, k, v =>
    if k0 = k then (k0, v) :: rest else (k0, v0) :: dictInsert rest k v

/-- Python dict equality (`==`): same keys with equal values, order ignored. -/
def pyDictEq (e1 e2 : Entry) : Bool :=
  e1.all (fun kv => lookupVal e2 kv.1 == some kv.2) &&
  e2.all (fun kv => lookupVal e1 kv.1 == some kv.2)

/-- The apostrophe character, written via its code point. -/
def sq : Char := Char.ofNat 39

/-- Python repr of a string (quote escaping is not modelled; no input in this
development contains a quote character). -/
def quoted (s : String) : String := String.mk (sq :: s.data ++ [sq])

/-- Python `repr` of a value. `datetime` reprs are modelled by an injective
placeholder rendering (their exact text never matters to any claim). -/
def pyRepr : Value → String
  | VStr s => quoted s
  | VNone => "None"
  | VTime n => "datetime00(" ++ toString n ++ ")"
  | VList l => "[" ++ String.intercalate ", " (l.map quoted) ++ "]"

/-- Python `str` of a value: identity on strings, `repr` otherwise
(`str(None) = "None"`). -/
def pyStr : Value → String
  | VStr s => s
  | v => pyRepr v

/-- Join character lists with a separator (Python `", ".join`-style). -/
def joinSep (sep : List Char) : List (List Char) → List Char
  | [] => []
  | [x] => x
  | x :: y :: xs => x ++ sep ++ joinSep sep (y :: xs)

/-- Characters of the repr of one `(key, value)` pair as it appears inside
`str(dict.items())`. -/
def pairChars (kv : String × Value) : List Char :=
  ("(" ++ quoted kv.1 ++ ", " ++ pyRepr kv.2 ++ ")").data

/-- Characters of `str(content.items())`, e.g.
`dict_items([('title', 'ab')])`. -/
def itemsChars (e : Entry) : List Char :=
  "dict_items([".data ++ joinSep ", ".data (e.map pairChars) ++ "])".data

/-- The value actually fed to md5 in `get_content_hash`:
`sorted(str(content.items()).encode('utf-8'))`, i.e. the ascending list of
byte values of the serialized items view.  (The subsequent Python `str()` of
this list and `.encode()` are injective and are absorbed into the ideal
digest.) -/
def canonical_bytes (e : Entry) : List Nat :=
  List.insertionSort (· ≤ ·) ((itemsChars e).map Char.toNat)

/-- hashlib.md5 hexdigest, modelled as an ideal (collision-free) digest:
the program only ever compares digests for equality, and the spec treats
digest collisions as negligible, so an injective map is the faithful model. -/
def md5_hexdigest (bs : List Nat) : List Nat := bs

/-- `DuplicateResolver.get_content_hash` from src/src/dedup.py:
`md5(str(sorted(str(content.items()).encode('utf-8'))).encode('utf-8')).hexdigest()`. -/
def get_content_hash (e : Entry) : List Nat :=
  md5_hexdigest (canonical_bytes e)

section PermLemmas

variable {α : Type}

/-- Flatten is invariant (up to permutation) under permuting the outer list. -/
theorem perm_flatten_of_perm {l₁ l₂ : List (List α)} (h : l₁.Perm l₂) :
    l₁.flatten.Perm l₂.flatten := by
  induction h with
  | nil => exact List.Perm.refl _
  | cons x _ ih => simpa using ih.append_left x
  | swap x y l =>
    simp only [List.flatten_cons]
    have hc := (@List.perm_append_comm _ y x).append_right l.flatten
    simpa [List.append_assoc] using hc
  | trans _ _ ih1 ih2 => exact ih1.trans ih2

/-- `joinSep` over a nonempty list is, up to permutation, the flatten of the
pieces plus one separator per gap. -/
theorem joinSep_cons_perm (sep x : List Char) :
    ∀ xs : List (List Char),
      (joinSep sep (x :: xs)).Perm
        ((x :: xs).flatten ++ (List.replicate xs.length sep).flatten)
  | [] => by simp [joinSep]
  | y :: xs => by
    have ih := joinSep_cons_perm sep y xs
    have h1 : (joinSep sep (x :: y :: xs)).Perm
        ((x ++ sep) ++ ((y :: xs).flatten ++
          (List.replicate xs.length sep).flatten)) := by
      simpa [joinSep, List.append_assoc] using ih.append_left (x ++ sep)
    have h2 : ((sep ++ (y :: xs).flatten)).Perm ((y :: xs).flatten ++ sep) :=
      List.perm_append_comm
    have h3 := (h2.append_right
      ((List.replicate xs.length sep).flatten)).append_left x
    refine h1.trans ?_
    simpa [List.append_assoc, List.flatten_cons, List.replicate_succ] using h3

/-- Permuting the joined pieces permutes the join. -/
theorem joinSep_perm (sep : List Char) {xs ys : List (List Char)}
    (h : xs.Perm ys) : (joinSep sep xs).Perm (joinSep sep ys) := by
  cases xs with
  | nil => cases h.nil_eq; exact List.Perm.refl _
  | cons x xs =>
    cases ys with
    | nil => cases h.symm.nil_eq
    | cons y ys =>
      have hx := joinSep_cons_perm sep x xs
      have hy := joinSep_cons_perm sep y ys
      have hlen : xs.length = ys.length := by
        have := h.length_eq
        simpa using this
      refine hx.trans (.trans ?_ hy.symm)
      rw [hlen]
      exact (perm_flatten_of_perm h).append_right _

end PermLemmas

/-- Entries whose pair lists are permutations of one another serialize to
character-permutations of one another, hence sort to the same byte list. -/
theorem canonical_bytes_perm {e1 e2 : Entry} (h : e1.Perm e2) :
    canonical_bytes e1 = canonical_bytes e2 := by
  have hitems : (itemsChars e1).Perm (itemsChars e2) := by
    unfold itemsChars
    exact ((joinSep_perm _ (h.map pairChars)).append_left _).append_right _
  have hbytes : ((itemsChars e1).map Char.toNat).Perm
      ((itemsChars e2).map Char.toNat) := hitems.map _
  unfold canonical_bytes
  exact List.eq_of_perm_of_sorted
    ((List.perm_insertionSort _ _).trans
      (hbytes.trans (List.perm_insertionSort _ _).symm))
    (List.sorted_insertionSort _ _) (List.sorted_insertionSort _ _)

/-!
Model of `difflib.SequenceMatcher(None, a, b).ratio()` from the Python
standard library, used by `DuplicateResolver.text_similarity`.  The structure
follows difflib: an index map for the second sequence (with the automatic
junk heuristic for popular characters of sequences of length at least 200),
`find_longest_match` as a row-by-row dynamic program followed by the four
junk-aware extension loops, and the ratio `2 * M / T` over the total size of
all matching blocks, computed as exact rationals. -/

/-- Ascending positions at which character `c` occurs in `b` (difflib `b2j`). -/
def charIndices (b : List Char) (c : Char) : List Nat :=
  b.enum.filterMap (fun p => if p.2 = c then some p.1 else none)

/-- The difflib autojunk heuristic: for sequences of length at least 200, a
character occurring more than `1% + 1` times is popular and dropped. -/
def isPopular (b : List Char) (c : Char) : Bool :=
  decide (200 ≤ b.length) && decide (b.length / 100 + 1 < b.count c)

/-- Lookup of `b2j` after junk removal: positions of `c` in `b`, or `[]` when
`c` is junked (or absent). -/
def b2jGet (b : List Char) (c : Char) : List Nat :=
  if isPopular b c then [] else charIndices b c

/-- Result triple of `find_longest_match`: block start in `a`, start in `b`,
and size. -/
structure FLM : Type where
  besti : Nat
  bestj : Nat
  bestsize : Nat
deriving DecidableEq, Repr

/-- Inner loop of `find_longest_match` over the occurrence list of `a[i]` in
`b`: builds the new diagonal-run map and updates the best block (entries with
`j < blo` are skipped; the loop breaks at `j >= bhi`). -/
def flmInner (i blo bhi : Nat) (j2len : Nat → Nat) :
    List Nat → (Nat → Nat) → FLM → ((Nat → Nat) × FLM)
  | [], acc, best => (acc, best)
  | j :: rest, acc, best =>
    if j < blo then flmInner i blo bhi j2len rest acc best
    else if bhi ≤ j then (acc, best)
    else
      let k := (if j = 0 then 0 else j2len (j - 1)) + 1
      let acc' := fun x => if x = j then k else acc x
      let best' : FLM :=
        if best.bestsize < k then ⟨i + 1 - k, j + 1 - k, k⟩ else best
      flmInner i blo bhi j2len rest acc' best'

/-- Outer loop of `find_longest_match` over the rows `alo, ..., ahi - 1`. -/
def flmRows (a b : List Char) (blo bhi : Nat) :
    List Nat → (Nat → Nat) → FLM → FLM
  | [], _, best => best
  | i :: rest, j2len, best =>
    let res := flmInner i blo bhi j2len (b2jGet b (a.getD i sq)) (fun _ => 0) best
    flmRows a b blo bhi rest res.1 res.2

/-- Leftward extension loop of `find_longest_match` (`junkFlag` selects the
non-junk or the junk variant).  The fuel strictly exceeds the possible number
of iterations; each iteration decrements `besti`. -/
def extendLeft (a b : List Char) (alo blo : Nat) (junkFlag : Bool) :
    Nat → FLM → FLM
  | 0, s => s
  | Nat.succ fuel, s =>
    if alo < s.besti ∧ blo < s.bestj ∧
        isPopular b (b.getD (s.bestj - 1) sq) = junkFlag ∧
        a.getD (s.besti - 1) sq = b.getD (s.bestj - 1) sq then
      extendLeft a b alo blo junkFlag fuel
        ⟨s.besti - 1, s.bestj - 1, s.bestsize + 1⟩
    else s

/-- Rightward extension loop of `find_longest_match`. -/
def extendRight (a b : List Char) (ahi bhi : Nat) (junkFlag : Bool) :
    Nat → FLM → FLM
  | 0, s => s
  | Nat.succ fuel, s =>
    if s.besti + s.bestsize < ahi ∧ s.bestj + s.bestsize < bhi ∧
        isPopular b (b.getD (s.bestj + s.bestsize) sq) = junkFlag ∧
        a.getD (s.besti + s.bestsize) sq = b.getD (s.bestj + s.bestsize) sq then
      extendRight a b ahi bhi junkFlag fuel
        ⟨s.besti, s.bestj, s.bestsize + 1⟩
    else s

/-- difflib `find_longest_match` on `a[alo:ahi]` / `b[blo:bhi]`. -/
def find_longest_match (a b : List Char) (alo ahi blo bhi : Nat) : FLM :=
  let best0 := flmRows a b blo bhi (List.range' alo (ahi - alo))
    (fun _ => 0) ⟨alo, blo, 0⟩
  let s1 := extendLeft a b alo blo false best0.besti best0
  let s2 := extendRight a b ahi bhi false (ahi + 1) s1
  let s3 := extendLeft a b alo blo true s2.besti s2
  let s4 := extendRight a b ahi bhi true (ahi + 1) s3
  s4

/-- Total size of all matching blocks (the recursive splitting of
`get_matching_blocks`; only the sum of sizes is needed for the ratio, and the
final adjacent-block merge of difflib preserves that sum).  The fuel strictly
exceeds the recursion depth, which is bounded by half the total interval
size. -/
def matchingTotalFuel (a b : List Char) : Nat → Nat → Nat → Nat → Nat → Nat
  | 0, _, _, _, _ => 0
  | Nat.succ fuel, alo, ahi, blo, bhi =>
    let m := find_longest_match a b alo ahi blo bhi
    if m.bestsize = 0 then 0
    else
      matchingTotalFuel a b fuel alo m.besti blo m.bestj + m.bestsize +
        matchingTotalFuel a b fuel (m.besti + m.bestsize) ahi
          (m.bestj + m.bestsize) bhi

/-- Sum of sizes of all matching blocks of the two full sequences. -/
def matchingTotal (a b : List Char) : Nat :=
  matchingTotalFuel a b (a.length + b.length + 1) 0 a.length 0 b.length

/-- difflib `ratio`: `2 * M / T` as an exact rational, `1` when both
sequences are empty. -/
def seqRatio (a b : List Char) : Rat :=
  let length := a.length + b.length
  if length = 0 then 1
  else (2 * (matchingTotal a b : Rat)) / (length : Rat)

/-- `DuplicateResolver.text_similarity` from src/src/dedup.py:
`difflib.SequenceMatcher(None, text1, text2).ratio()`. -/
def text_similarity (text1 text2 : String) : Rat :=
  seqRatio text1.data text2.data

/-- Modelled Python exceptions raised by the embedded code. -/
inductive PyErr : Type
  | typeError
  | valueError
deriving DecidableEq, Repr

/-- Lexicographic strict order on character lists by code point — the order
Python uses to compare strings. -/
def charListLt : List Char → List Char → Bool
  | [], [] => false
  | [], _ :: _ => true
  | _ :: _, [] => false
  | a :: as, b :: bs =>
    if a < b then true else if b < a then false else charListLt as bs

/-- Python `a < b` on strings. -/
def strLt (a b : String) : Bool := charListLt a.data b.data

/-- Python `a <= b` on strings (total order, so `a <= b` iff `not (b < a)`). -/
def strLe (a b : String) : Bool := !(strLt b a)

/-- Lexicographic strict order on lists of strings (Python list comparison,
element type string). -/
def listLt : List String → List String → Bool
  | [], [] => false
  | [], _ :: _ => true
  | _ :: _, [] => false
  | a :: as, b :: bs =>
    if strLt a b then true else if strLt b a then false else listLt as bs

/-- Python `x > y` on entry values: defined within one comparable type
(datetimes, strings, lists of strings), raising `TypeError` across types and
on `None` (exactly as CPython does). -/
def pyGT : Value → Value → Except PyErr Bool
  | VTime a, VTime b => .ok (decide (b < a))
  | VStr a, VStr b => .ok (strLt b a)
  | VList a, VList b => .ok (listLt b a)
  | _, _ => .error .typeError

/-- Python `len` on entry values: strings and lists have a length, `None` and
datetimes raise `TypeError`. -/
def pyLen : Value → Except PyErr Nat
  | VStr s => .ok s.length
  | VList l => .ok l.length
  | _ => .error .typeError

/-- The default `similarity_threshold` of `DuplicateResolver` (0.85). -/
def similarity_threshold : Rat := (85 : Rat) / 100

/-- The fixed comparison-field list of `is_duplicate_entry`. -/
def comparison_keys : List String :=
  ["title", "description", "summary", "role", "company"]

/-- One comparison field of the fuzzy loop: when the key is present (as a
key, whatever its value) in both entries, add the similarity of the `str()`
of the two values and bump the match counter; otherwise skip. -/
def fuzzyStep (new_entry entry : Entry) (acc : Rat × Nat) (key : String) :
    Rat × Nat :=
  match lookupVal new_entry key, lookupVal entry key with
  | some v1, some v2 =>
    (acc.1 + text_similarity (pyStr v1) (pyStr v2), acc.2 + 1)
  | _, _ => acc

/-- Accumulates `(similarity_score, matches)` over the comparison fields that
are present (as keys) in both entries, via `str()` of the two values. -/
def fuzzyScore (new_entry entry : Entry) : Rat × Nat :=
  comparison_keys.foldl (fuzzyStep new_entry entry) (0, 0)

/-- `DuplicateResolver.is_duplicate_entry` from src/src/dedup.py: first an
exact content-hash scan over all existing entries, then a fuzzy scan where
the mean similarity of the shared comparison fields must exceed the
threshold; returns the matching entry, or `(false, {})`. -/
def is_duplicate_entry (new_entry : Entry) (existing_entries : List Entry) :
    Bool × Entry :=
  let new_hash := get_content_hash new_entry
  match existing_entries.find? (fun entry =>
      get_content_hash entry == new_hash) with
  | some entry => (true, entry)
  | none =>
    match existing_entries.find? (fun entry =>
        let sc := fuzzyScore new_entry entry
        decide (0 < sc.2) && decide (similarity_threshold < sc.1 / (sc.2 : Rat))) with
    | some entry => (true, entry)
    | none => (false, [])

/-- Python `sorted(list(set(l0 + l)))` for lists of strings: deduplicate by
value, then sort ascending. -/
def sortedSetUnion (l0 l : List String) : List String :=
  List.insertionSort (fun a b => strLe a b = true) ((l0 ++ l).eraseDups)

/-- One iteration of the overlay loop of `resolve_conflicts` for the pair
`(key, value)` from the incoming entry: list values are merged as a sorted
deduplicated union (raising `TypeError` when the base value for that key is
not a list), string values replace the base value only when strictly longer
(raising `TypeError` when the base value has no `len`), other values are
skipped. -/
def resolveStep (resolved : Entry) (kv : String × Value) : Except PyErr Entry :=
  match kv.2 with
  | VList l =>
    match (lookupVal resolved kv.1).getD (VList []) with
    | VList l0 => .ok (dictInsert resolved kv.1 (VList (sortedSetUnion l0 l)))
    | _ => .error .typeError
  | VStr s =>
    match pyLen ((lookupVal resolved kv.1).getD (VStr "")) with
    | .error e => .error e
    | .ok n => .ok (if n < s.length then dictInsert resolved kv.1 (VStr s)
        else resolved)
  | _ => .ok resolved

/-- The overlay loop of `resolve_conflicts` over the incoming entry's items,
in insertion order. -/
def resolveFold : Entry → List (String × Value) → Except PyErr Entry
  | resolved, [] => .ok resolved
  | resolved, kv :: rest =>
    match resolveStep resolved kv with
    | .error e => .error e
    | .ok r => resolveFold r rest

/-- `DuplicateResolver.resolve_conflicts` from src/src/dedup.py: the entry
with the newer `timestamp` (absent timestamps default to `datetime.min`)
becomes the base, then the incoming entry's fields are overlaid. -/
def resolve_conflicts (new_entry existing_entry : Entry) : Except PyErr Entry :=
  let new_time := (lookupVal new_entry "timestamp").getD (VTime 0)
  let old_time := (lookupVal existing_entry "timestamp").getD (VTime 0)
  match pyGT new_time old_time with
  | .error e => .error e
  | .ok newer =>
    let base := if newer then new_entry else existing_entry
    resolveFold base new_entry

/-- The accumulator loop of `deduplicate_entries`: a duplicate replaces the
first accumulator entry that compares `==` to the matched entry (Python
`list.index`, which raises `ValueError` when nothing matches) with the merge
result; a non-duplicate is appended. -/
def dedupGo : List Entry → List Entry → Except PyErr (List Entry)
  | unique, [] => .ok unique
  | unique, entry :: rest =>
    let r := is_duplicate_entry entry unique
    if r.1 then
      match unique.findIdx? (fun u => pyDictEq u r.2) with
      | none => .error .valueError
      | some idx =>
        match resolve_conflicts entry r.2 with
        | .error e => .error e
        | .ok merged => dedupGo (unique.set idx merged) rest
    else dedupGo (unique ++ [entry]) rest

/-- `DuplicateResolver.deduplicate_entries` from src/src/dedup.py. -/
def deduplicate_entries (entries : List Entry) : Except PyErr (List Entry) :=
  dedupGo [] entries

/-!
Model of the canonical knowledge-base merge (src/src/kb_ingest.py,
`merge_into_kb`) and of the staging lifecycle (src/src/staging.py).  The
file-backed persistence is modelled as explicit state: the four canonical
collections as lists already loaded from their JSON files (a corrupt or
absent file is the empty state, exactly what the source falls back to), the
staging directory as an association list from stage id to record.  ISO
timestamp strings (`datetime.now().isoformat()`) are modelled by the integer
number of seconds of the instant they denote; `datetime.fromisoformat`
inverts `isoformat`, and `timedelta.days` is floor division by 86400. -/

/-- Elements of the patents/certifications lists of a parsed bundle: the
source treats dict elements and non-dict (string) elements differently. -/
inductive PVal : Type
  | PDict : Entry → PVal
  | PStr : String → PVal
deriving DecidableEq, Repr

/-- One ingestion's parsed content bundle (the dict passed to
`stage_parsed_content` and `merge_into_kb`): absent or falsy collections are
the empty list, an absent summary is `none`. -/
structure Bundle : Type where
  experience : List Entry
  projects : List Entry
  patents : List PVal
  certifications : List PVal
  summary : Option String
deriving DecidableEq, Repr

/-- The canonical store: cv.json's name, summary and experience list, plus
the projects/patents/certifications collections. -/
structure KB : Type where
  name : Option String
  cv_summary : Option String
  experience : List Entry
  projects : List Entry
  patents : List Entry
  certifications : List Entry
deriving DecidableEq, Repr

/-- The summary dict returned by `merge_into_kb`. -/
structure MergeSummary : Type where
  cv_added : Nat
  projects_added : Nat
  patents_added : Nat
  certs_added : Nat
deriving DecidableEq, Repr

/-- Opening brace character, via its code point. -/
def lbrace : Char := Char.ofNat 123

/-- Closing brace character, via its code point. -/
def rbrace : Char := Char.ofNat 125

/-- Python `str` of a dict, e.g. a dict-typed patent without a title. -/
def pyStrDict (e : Entry) : String :=
  String.mk (lbrace ::
    (String.intercalate ", "
      (e.map (fun kv => quoted kv.1 ++ ": " ++ pyRepr kv.2))).data ++ [rbrace])

/-- Python truthiness of the optional summary string (`None` and the empty
string are falsy). -/
def truthySummary : Option String → Bool
  | none => false
  | some s => decide (s ≠ "")

/-- Patent normalization of `merge_into_kb`: a dict with a title becomes
`{title, description, year}` (with defaults), anything else becomes
`{title: str(p)}`. -/
def normalizePatent : PVal → Entry
  | .PDict e =>
    if hasKey e "title" then
      [("title", (lookupVal e "title").getD VNone),
       ("description", (lookupVal e "description").getD (VStr "")),
       ("year", (lookupVal e "year").getD VNone)]
    else [("title", VStr (pyStrDict e))]
  | .PStr s => [("title", VStr s)]

/-- Certification normalization of `merge_into_kb`: `{name: c.get('title')}`
for dicts, `{name: str(c)}` otherwise. -/
def normalizeCert : PVal → Entry
  | .PDict e => [("name", (lookupVal e "title").getD VNone)]
  | .PStr s => [("name", VStr s)]

/-- `merge_into_kb` from src/src/kb_ingest.py: appends the incoming entries
to each of the four canonical collections (normalizing patents and
certifications), sets the cv name if absent, replaces the cv summary when a
truthy one is given, and returns the added counts. -/
def merge_into_kb (parsed : Bundle) (name_hint : Option String) (kb : KB) :
    KB × MergeSummary :=
  let condCv := truthySummary parsed.summary || !parsed.experience.isEmpty
  let kb1 := if condCv then
      { kb with
        name := some ((kb.name).getD (name_hint.getD "")),
        experience := kb.experience ++ parsed.experience,
        cv_summary := if truthySummary parsed.summary then parsed.summary
          else kb.cv_summary }
    else kb
  let s1 := if condCv then parsed.experience.length else 0
  let condP := !parsed.projects.isEmpty
  let kb2 := if condP then { kb1 with projects := kb1.projects ++ parsed.projects }
    else kb1
  let s2 := if condP then parsed.projects.length else 0
  let condPat := !parsed.patents.isEmpty
  let kb3 := if condPat then
      { kb2 with patents := kb2.patents ++ parsed.patents.map normalizePatent }
    else kb2
  let s3 := if condPat then parsed.patents.length else 0
  let condC := !parsed.certifications.isEmpty
  let kb4 := if condC then
      { kb3 with certifications :=
          kb3.certifications ++ parsed.certifications.map normalizeCert }
    else kb3
  let s4 := if condC then parsed.certifications.length else 0
  (kb4, ⟨s1, s2, s3, s4⟩)

/-- Staging lifecycle status values written by the code. -/
inductive Status : Type
  | pending
  | approved
  | rejected
deriving DecidableEq, Repr

/-- The metadata object of a staged record's JSON file. -/
structure StagedMeta : Type where
  timestamp : Int
  source : Entry
  status : Status
  approved_at : Option Int
  rejected_at : Option Int
  rejection_reason : Option String
deriving DecidableEq, Repr

/-- One staged record (`{content, metadata}` as persisted in
`STAGING_DIR/<id>.json`). -/
structure StagedRecord : Type where
  content : Bundle
  metadata : StagedMeta
deriving DecidableEq, Repr

/-- The staging directory: stage id to record. -/
abbrev Store : Type := List (String × StagedRecord)

/-- Lookup of a staged record by id. -/
def lookupStore : Store → String → Option StagedRecord
  | [], _ => none
  | (k, r) :: rest, key => if k = key then some r else lookupStore rest key

/-- Writing `<id>.json`: replaces the record at the id, or adds it. -/
def storeInsert : Store → String → StagedRecord → Store
  | [], k, r => [(k, r)]
  | (k0, r0) :: rest, k, r =>
    if k0 = k then (k0, r) :: rest else (k0, r0) :: storeInsert rest k r

/-- JSON serialization of a value (`json.dumps`; string escaping is not
modelled, and no claim stages datetime-valued fields, which `json.dumps`
would reject). -/
def dumpsValue : Value → String
  | VStr s => "\"" ++ s ++ "\""
  | VNone => "null"
  | VTime n => toString n
  | VList l => "[" ++ String.intercalate ", " (l.map (fun s => "\"" ++ s ++ "\"")) ++ "]"

/-- JSON serialization of a dict with `sort_keys=True`. -/
def dumpsEntry (e : Entry) : String :=
  String.mk (lbrace ::
    (String.intercalate ", "
      ((List.insertionSort (fun kv1 kv2 => strLe kv1.1 kv2.1 = true) e).map
        (fun kv => "\"" ++ kv.1 ++ "\": " ++ dumpsValue kv.2))).data ++ [rbrace])

/-- JSON serialization of a patents/certifications element. -/
def dumpsPVal : PVal → String
  | .PDict e => dumpsEntry e
  | .PStr s => "\"" ++ s ++ "\""

/-- JSON serialization of the parsed bundle with sorted keys. -/
def dumpsBundle (b : Bundle) : String :=
  String.mk (lbrace ::
    ("\"certifications\": [" ++
      String.intercalate ", " (b.certifications.map dumpsPVal) ++
     "], \"experience\": [" ++
      String.intercalate ", " (b.experience.map dumpsEntry) ++
     "], \"patents\": [" ++
      String.intercalate ", " (b.patents.map dumpsPVal) ++
     "], \"projects\": [" ++
      String.intercalate ", " (b.projects.map dumpsEntry) ++
     "], \"summary\": " ++
      (match b.summary with
       | none => "null"
       | some s => "\"" ++ s ++ "\"")).data ++ [rbrace])

/-- The serialized stage entry `json.dumps(stage_entry, sort_keys=True)`
built by `stage_parsed_content` (keys in sorted order: content before
metadata; source, status, timestamp). -/
def dumpsStageEntry (parsed : Bundle) (source : Entry) (ts : Int) : String :=
  "\x7b\"content\": " ++ dumpsBundle parsed ++
  ", \"metadata\": \x7b\"source\": " ++ dumpsEntry source ++
  ", \"status\": \"pending\", \"timestamp\": \"" ++ toString ts ++ "\"\x7d\x7d"

/-- hashlib.sha256 hexdigest, modelled as an ideal (collision-free) digest;
the source truncates it to 12 hex characters, which only makes accidental id
collisions more likely and is immaterial to every claim (none relies on ids
of distinct proposals being distinct). -/
def sha256_hexdigest_trunc12 (s : String) : String := s

/-- `generate_stage_id` from src/src/staging.py, applied to the stage entry
that `stage_parsed_content` builds:
`sha256(json.dumps(content, sort_keys=True).encode()).hexdigest()[:12]`. -/
def generate_stage_id (parsed : Bundle) (source : Entry) (ts : Int) : String :=
  sha256_hexdigest_trunc12 (dumpsStageEntry parsed source ts)

/-- `stage_parsed_content` from src/src/staging.py: builds a fresh pending
record, derives the content-addressed id, and writes the record at that id —
unconditionally overwriting whatever file already sits there. -/
def stage_parsed_content (parsed : Bundle) (source_info : Entry) (now : Int)
    (st : Store) : String × Store :=
  let stage_id := generate_stage_id parsed source_info now
  let record : StagedRecord :=
    ⟨parsed, ⟨now, source_info, .pending, none, none, none⟩⟩
  (stage_id, storeInsert st stage_id record)

/-- `get_staged_entry` from src/src/staging.py. -/
def get_staged_entry (st : Store) (stage_id : String) : Option StagedRecord :=
  lookupStore st stage_id

/-- Lifecycle errors: the source raises `ValueError` in both cases; the two
are distinguished by their messages and named after the spec's error
taxonomy (`NotFound` for an unknown id, `InvalidState` for a re-transition).
A raise happens before any mutation, so the caller's state is unchanged. -/
inductive StagingErr : Type
  | notFound
  | invalidState
deriving DecidableEq, Repr

/-- The dict returned by `approve_staged_entry`. -/
structure ApproveResult : Type where
  stage_id : String
  approved_at : Int
  merge_summary : MergeSummary
deriving DecidableEq, Repr

/-- `approve_staged_entry` from src/src/staging.py: fails on an unknown id,
fails when the status is already `approved`, otherwise stamps
status/approved_at, persists the record, merges the content into the
canonical store, and returns a summary. -/
def approve_staged_entry (stage_id : String) (now : Int) (st : Store)
    (kb : KB) : Except StagingErr (ApproveResult × Store × KB) :=
  match get_staged_entry st stage_id with
  | none => .error .notFound
  | some entry =>
    if entry.metadata.status = .approved then .error .invalidState
    else
      let entry' := { entry with metadata :=
        { entry.metadata with status := .approved, approved_at := some now } }
      let st' := storeInsert st stage_id entry'
      let mk := merge_into_kb entry.content none kb
      .ok (⟨stage_id, now, mk.2⟩, st', mk.1)

/-- The dict returned by `reject_staged_entry`. -/
structure RejectResult : Type where
  stage_id : String
  rejected_at : Int
  reason : String
deriving DecidableEq, Repr

/-- `reject_staged_entry` from src/src/staging.py: fails on an unknown id,
fails when the status is already `rejected`, otherwise stamps
status/rejected_at/rejection_reason and persists the record.  It never
touches the canonical store (hence its type does not involve `KB`). -/
def reject_staged_entry (stage_id : String) (reason : String) (now : Int)
    (st : Store) : Except StagingErr (RejectResult × Store) :=
  match get_staged_entry st stage_id with
  | none => .error .notFound
  | some entry =>
    if entry.metadata.status = .rejected then .error .invalidState
    else
      let entry' := { entry with metadata :=
        { entry.metadata with
          status := .rejected
          rejected_at := some now
          rejection_reason := some reason } }
      .ok (⟨stage_id, now, reason⟩, storeInsert st stage_id entry')

/-- Age in whole days between two instants (`(now - processed).days`;
`timedelta.days` floors, hence `Int.fdiv`). -/
def daysBetween (processed now : Int) : Int := (now - processed).fdiv 86400

/-- The processed timestamp that `cleanup_old_entries` reads:
`metadata.get('approved_at') or metadata.get('rejected_at')` (an ISO string
is always truthy, so a present `approved_at` wins even on a currently
rejected record). -/
def processedAt (m : StagedMeta) : Option Int :=
  match m.approved_at with
  | some a => some a
  | none => m.rejected_at

/-- Deletion test of `cleanup_old_entries` for one record. -/
def shouldRemove (max_age_days now : Int) (r : StagedRecord) : Bool :=
  if r.metadata.status = .pending then false
  else
    match processedAt r.metadata with
    | none => false
    | some p => decide (max_age_days < daysBetween p now)

/-- `cleanup_old_entries` from src/src/staging.py: deletes every non-pending
record whose processed timestamp is more than `max_age_days` whole days old,
and returns the number removed (source default: 30 days). -/
def cleanup_old_entries (max_age_days now : Int) : Store → Nat × Store
  | [] => (0, [])
  | (i, r) :: rest =>
    let res := cleanup_old_entries max_age_days now rest
    if shouldRemove max_age_days now r then (res.1 + 1, res.2)
    else (res.1, (i, r) :: res.2)

/-! Helper lemmas shared by several claims. -/

/-- Looking up the just-written id in the staging store finds the new record. -/
theorem lookup_storeInsert_self : ∀ (st : Store) (k : String) (r : StagedRecord),
    lookupStore (storeInsert st k r) k = some r
  | [], k, r => by simp [storeInsert, lookupStore]
  | (k0, r0) :: rest, k, r => by
    by_cases h : k0 = k
    · simp [storeInsert, lookupStore, h]
    · simp [storeInsert, lookupStore, h, lookup_storeInsert_self rest k r]

/-- Dict assignment only affects the assigned key. -/
theorem lookupVal_dictInsert : ∀ (e : Entry) (k : String) (v : Value) (key : String),
    lookupVal (dictInsert e k v) key = if key = k then some v else lookupVal e key
  | [], k, v, key => by
    by_cases h : key = k
    · subst h; simp [dictInsert, lookupVal]
    · have h2 : ¬(k = key) := fun hh => h hh.symm
      simp [dictInsert, lookupVal, h, h2]
  | (k0, v0) :: rest, k, v, key => by
    simp only [dictInsert]
    by_cases h0 : k0 = k
    · subst h0
      by_cases h : key = k0
      · subst h; simp [lookupVal]
      · have h2 : ¬(k0 = key) := fun hh => h hh.symm
        simp [lookupVal, h, h2]
    · simp only [if_neg h0, lookupVal]
      by_cases h : k0 = key
      · subst h
        have hk : ¬(k0 = k) := h0
        simp [lookupVal, hk]
      · simp [h, lookupVal_dictInsert rest k v key]

/-! Claim theorems. -/

/-- Concrete entry `{"title": "ab"}`. -/
def eAB : Entry := [("title", VStr "ab")]

/-- Concrete entry `{"title": "ba"}`. -/
def eBA : Entry := [("title", VStr "ba")]

/-- C3: the two entries differ in the value of `title`, yet
`get_content_hash` feeds md5 the identical byte list for both — the
canonicalization sorts the bytes of `str(content.items())`, so any two
entries whose serialized views are anagrams of one another collide
deterministically, independently of the digest.  This contradicts the spec's
required canonicalization (sort fields by key, then hash), whose intent the
docstring ("stable hash of content for comparison") and the use for
exact-duplicate detection make clear: the code is a slip. -/
theorem C3_thm :
    lookupVal eAB "title" ≠ lookupVal eBA "title" ∧
    canonical_bytes eAB = canonical_bytes eBA ∧
    get_content_hash eAB = get_content_hash eBA := by
  refine ⟨by decide, by decide, by decide⟩

/-- C9: entries holding the same fields with the same values in any insertion
order produce identical fingerprints: permuting the pairs permutes the
characters of `str(content.items())`, and sorting the bytes cancels the
permutation. -/
theorem C9_thm (e1 e2 : Entry) (h : e1.Perm e2) :
    get_content_hash e1 = get_content_hash e2 := by
  unfold get_content_hash
  exact congrArg md5_hexdigest (canonical_bytes_perm h)

/-- Witness for C9 at the spec's own example, `{"title":"A","company":"B"}`
versus `{"company":"B","title":"A"}`. -/
theorem C9_witness :
    ([("title", VStr "A"), ("company", VStr "B")] : Entry).Perm
      [("company", VStr "B"), ("title", VStr "A")] ∧
    get_content_hash [("title", VStr "A"), ("company", VStr "B")] =
      get_content_hash [("company", VStr "B"), ("title", VStr "A")] :=
  ⟨by decide, C9_thm _ _ (by decide)⟩

/-- C10: staging content whose derived id collides with an existing staged
record returns that id and unconditionally overwrites the stored record with
a fresh pending one: no field of the previous record (status, status
timestamps, rejection reason) survives. -/
theorem C10_thm (parsed : Bundle) (source_info : Entry) (now : Int)
    (st : Store) (r0 : StagedRecord)
    (h : lookupStore st (generate_stage_id parsed source_info now) = some r0) :
    (stage_parsed_content parsed source_info now st).1 =
      generate_stage_id parsed source_info now ∧
    lookupStore (stage_parsed_content parsed source_info now st).2
        (generate_stage_id parsed source_info now) =
      some ⟨parsed, ⟨now, source_info, Status.pending, none, none, none⟩⟩ := by
  refine ⟨rfl, ?_⟩
  unfold stage_parsed_content
  exact lookup_storeInsert_self st _ _

/-- A content bundle `{"experience": [{"title": "X"}]}` used by several
concrete staging scenarios. -/
def bX : Bundle := ⟨[[("title", VStr "X")]], [], [], [], none⟩

/-- An already-approved staged record holding `bX`. -/
def recApproved0 : StagedRecord := ⟨bX, ⟨0, [], Status.approved, some 1, none, none⟩⟩

/-- Witness for C10: re-staging onto the id of an existing approved record
(with an approval timestamp) yields a fresh pending record. -/
theorem C10_witness :
    lookupStore [(generate_stage_id bX [] 0, recApproved0)]
        (generate_stage_id bX [] 0) = some recApproved0 ∧
    (stage_parsed_content bX [] 0 [(generate_stage_id bX [] 0, recApproved0)]).1 =
      generate_stage_id bX [] 0 ∧
    lookupStore (stage_parsed_content bX [] 0
        [(generate_stage_id bX [] 0, recApproved0)]).2
        (generate_stage_id bX [] 0) =
      some ⟨bX, ⟨0, [], Status.pending, none, none, none⟩⟩ :=
  ⟨by simp [lookupStore], (C10_thm bX [] 0 _ recApproved0 (by simp [lookupStore])).1,
    (C10_thm bX [] 0 _ recApproved0 (by simp [lookupStore])).2⟩

/-- C7: `merge_into_kb` only appends to the four canonical collections: the
previously persisted entries are a prefix of the post-merge collections, so
no existing entry is ever deleted. -/
theorem C7_thm (parsed : Bundle) (hint : Option String) (kb : KB) :
    kb.experience <+: (merge_into_kb parsed hint kb).1.experience ∧
    kb.projects <+: (merge_into_kb parsed hint kb).1.projects ∧
    kb.patents <+: (merge_into_kb parsed hint kb).1.patents ∧
    kb.certifications <+: (merge_into_kb parsed hint kb).1.certifications := by
  unfold merge_into_kb
  dsimp only
  refine ⟨?_, ?_, ?_, ?_⟩ <;> split_ifs <;>
    simp [List.prefix_append]

/-- Well-typedness of one overlay step of `resolve_conflicts` against the
base entry: a list-valued incoming field needs a list (or nothing) at the
base, a string-valued incoming field needs a base value with a `len`. -/
def overlayOK (base : Entry) (kv : String × Value) : Bool :=
  match kv.2 with
  | VList _ =>
    match (lookupVal base kv.1).getD (VList []) with
    | VList _ => true
    | _ => false
  | VStr _ => (pyLen ((lookupVal base kv.1).getD (VStr ""))).isOk
  | _ => true

/-- A well-typed overlay step succeeds and only touches its own key. -/
theorem resolveStep_ok (resolved base : Entry) (kv : String × Value)
    (hl : lookupVal resolved kv.1 = lookupVal base kv.1)
    (hok : overlayOK base kv = true) :
    ∃ r, resolveStep resolved kv = Except.ok r ∧
      ∀ key, key ≠ kv.1 → lookupVal r key = lookupVal resolved key := by
  obtain ⟨k, v0⟩ := kv
  cases v0 with
  | VList l =>
    simp only [overlayOK] at hok
    simp only [resolveStep, hl]
    cases hb : (lookupVal base k).getD (VList []) with
    | VList l0 =>
      refine ⟨_, rfl, ?_⟩
      intro key hkey
      rw [lookupVal_dictInsert]
      simp [hkey]
    | VStr s => rw [hb] at hok; simp at hok
    | VTime n => rw [hb] at hok; simp at hok
    | VNone => rw [hb] at hok; simp at hok
  | VStr s =>
    simp only [overlayOK] at hok
    simp only [resolveStep, hl]
    cases hp : pyLen ((lookupVal base k).getD (VStr "")) with
    | error e => rw [hp] at hok; simp [Except.isOk, Except.toBool] at hok
    | ok n =>
      by_cases hlen : n < s.length
      · refine ⟨dictInsert resolved k (VStr s), by simp [hlen], ?_⟩
        intro key hkey
        rw [lookupVal_dictInsert]
        simp [hkey]
      · exact ⟨resolved, by simp [hlen], fun key _ => rfl⟩
  | VTime n => exact ⟨resolved, rfl, fun key _ => rfl⟩
  | VNone => exact ⟨resolved, rfl, fun key _ => rfl⟩

/-- The overlay fold succeeds when every incoming item is well typed against
the base and the incoming keys are distinct (entries model Python dicts, so
keys are unique): since each step only writes its own key, each step still
reads the base's original value. -/
theorem resolveFold_ok : ∀ (items : List (String × Value)) (resolved base : Entry),
    (items.map Prod.fst).Nodup →
    (∀ kv ∈ items, lookupVal resolved kv.1 = lookupVal base kv.1) →
    (∀ kv ∈ items, overlayOK base kv = true) →
    (resolveFold resolved items).isOk = true
  | [], resolved, base, _, _, _ => rfl
  | kv :: rest, resolved, base, hnodup, hinv, hok => by
    obtain ⟨r, hstep, hother⟩ := resolveStep_ok resolved base kv
      (hinv kv (List.mem_cons_self kv rest)) (hok kv (List.mem_cons_self kv rest))
    simp only [resolveFold, hstep]
    have hnotin : kv.1 ∉ rest.map Prod.fst := by
      have := hnodup
      simp only [List.map_cons, List.nodup_cons] at this
      exact this.1
    refine resolveFold_ok rest r base ?_ ?_ ?_
    · have := hnodup
      simp only [List.map_cons, List.nodup_cons] at this
      exact this.2
    · intro kv' hmem
      have hne : kv'.1 ≠ kv.1 := by
        intro hcontra
        exact hnotin (hcontra ▸ List.mem_map_of_mem Prod.fst hmem)
      rw [hother kv'.1 hne]
      exact hinv kv' (List.mem_cons_of_mem kv hmem)
    · intro kv' hmem
      exact hok kv' (List.mem_cons_of_mem kv hmem)

/-- C5 counterexample input: an entry with a string-typed timestamp. -/
def eStrTs : Entry := [("title", VStr "x"), ("timestamp", VStr "2021-01-01")]

/-- C5 counterexample input: an entry with no timestamp field. -/
def eNoTs : Entry := [("title", VStr "y")]

/-- C5 is false as stated: when exactly one entry carries a (string-typed)
timestamp, the base-selection comparison is `str > datetime` and raises
`TypeError` — `resolve_conflicts` is not total. -/
theorem C5_counterexample :
    resolve_conflicts eStrTs eNoTs = Except.error PyErr.typeError := by rfl

/-- C5 amended: `resolve_conflicts` does return a merged entry without
raising provided the two timestamp values (with the `datetime.min` default
for an absent field) are order-comparable, the incoming entry's keys are
distinct, and every overlay step is well typed against the selected base
(list onto list-or-absent, string onto a value with a length). -/
theorem C5_thm (new_entry existing_entry : Entry) (b : Bool)
    (hts : pyGT ((lookupVal new_entry "timestamp").getD (VTime 0))
        ((lookupVal existing_entry "timestamp").getD (VTime 0)) = Except.ok b)
    (hnodup : (new_entry.map Prod.fst).Nodup)
    (hok : ∀ kv ∈ new_entry,
        overlayOK (if b then new_entry else existing_entry) kv = true) :
    (resolve_conflicts new_entry existing_entry).isOk = true := by
  unfold resolve_conflicts
  dsimp only
  rw [hts]
  exact resolveFold_ok new_entry (if b then new_entry else existing_entry)
    (if b then new_entry else existing_entry) hnodup (fun kv _ => rfl) hok

/-- The older entry of the repo's conflict-resolution test. -/
def cOld : Entry :=
  [("title", VStr "Engineer"), ("timestamp", VTime 1), ("skills", VList ["Python"])]

/-- The newer entry of the repo's conflict-resolution test. -/
def cNew : Entry :=
  [("title", VStr "Senior Engineer"), ("timestamp", VTime 2),
   ("skills", VList ["Python", "Java"])]

/-- Witness for C5 at the repo's own conflict-resolution test inputs. -/
theorem C5_witness :
    pyGT ((lookupVal cNew "timestamp").getD (VTime 0))
        ((lookupVal cOld "timestamp").getD (VTime 0)) = Except.ok true ∧
    (cNew.map Prod.fst).Nodup ∧
    (∀ kv ∈ cNew, overlayOK (if true then cNew else cOld) kv = true) ∧
    (resolve_conflicts cNew cOld).isOk = true :=
  ⟨by rfl, by decide, by decide,
    C5_thm cNew cOld true (by rfl) (by decide) (by decide)⟩

/-- The fuzzy accumulator over any key list, when every key present in both
entries is `None` on both sides: the score equals the match count, and the
match count counts exactly the shared keys. -/
theorem fuzzyScore_aux (e1 e2 : Entry) :
    ∀ (keys : List String) (s : Rat) (m : Nat),
      (∀ k ∈ keys, (lookupVal e1 k).isSome = true →
          (lookupVal e2 k).isSome = true →
          lookupVal e1 k = some VNone ∧ lookupVal e2 k = some VNone) →
      s = (m : Rat) →
      (keys.foldl (fuzzyStep e1 e2) (s, m)).1 =
        ((keys.foldl (fuzzyStep e1 e2) (s, m)).2 : Rat) ∧
      (keys.foldl (fuzzyStep e1 e2) (s, m)).2 =
        m + keys.countP
          (fun k => (lookupVal e1 k).isSome && (lookupVal e2 k).isSome)
  | [], s, m, _, hs => by simp [hs]
  | k :: rest, s, m, h, hs => by
    simp only [List.foldl_cons]
    cases h1 : lookupVal e1 k with
    | none =>
      have hstep : fuzzyStep e1 e2 (s, m) k = (s, m) := by
        simp [fuzzyStep, h1]
      rw [hstep]
      have ih := fuzzyScore_aux e1 e2 rest s m
        (fun k' hk' => h k' (List.mem_cons_of_mem k hk')) hs
      refine ⟨ih.1, ?_⟩
      rw [ih.2, List.countP_cons]
      simp [h1]
    | some v1 =>
      cases h2 : lookupVal e2 k with
      | none =>
        have hstep : fuzzyStep e1 e2 (s, m) k = (s, m) := by
          simp [fuzzyStep, h1, h2]
        rw [hstep]
        have ih := fuzzyScore_aux e1 e2 rest s m
          (fun k' hk' => h k' (List.mem_cons_of_mem k hk')) hs
        refine ⟨ih.1, ?_⟩
        rw [ih.2, List.countP_cons]
        simp [h2]
      | some v2 =>
        have hn := h k (List.mem_cons_self k rest) (by simp [h1]) (by simp [h2])
        have hv1 : v1 = VNone := by
          have := hn.1; rw [h1] at this; exact Option.some.inj this
        have hv2 : v2 = VNone := by
          have := hn.2; rw [h2] at this; exact Option.some.inj this
        have hsim : text_similarity (pyStr VNone) (pyStr VNone) = 1 := by decide
        have hstep : fuzzyStep e1 e2 (s, m) k = (s + 1, m + 1) := by
          simp [fuzzyStep, h1, h2, hv1, hv2, hsim]
        rw [hstep]
        have ih := fuzzyScore_aux e1 e2 rest (s + 1) (m + 1)
          (fun k' hk' => h k' (List.mem_cons_of_mem k hk'))
          (by rw [hs]; push_cast; ring)
        refine ⟨ih.1, ?_⟩
        rw [ih.2, List.countP_cons]
        simp [h1, h2]
        omega

/-- C6 counterexample input: `{"title": None, "x": "foo"}`. -/
def nA : Entry := [("title", VNone), ("x", VStr "foo")]

/-- C6 counterexample input: `{"title": None, "y": "bar"}`. -/
def nB : Entry := [("title", VNone), ("y", VStr "bar")]

/-- C6 is false as stated: the two entries share only the comparison field
`title`, `None` on both sides; their hashes differ, yet the fuzzy pass
classifies them as duplicates, because the presence test is `key in entry`
(no `None` check) and `str(None) == str(None)` has similarity 1.0. -/
theorem C6_counterexample :
    get_content_hash nA ≠ get_content_hash nB ∧
    is_duplicate_entry nA [nB] = (true, nB) := by
  refine ⟨by decide, by decide⟩

/-- C6 amended: a comparison field whose key is present on both entries is
included even when its value is `None` on either side; `None` values are
stringified to `"None"`, so a field that is `None` on both sides contributes
similarity 1.0, and two hash-distinct entries all of whose shared comparison
fields are `None` on both sides (at least one shared) are always classified
as fuzzy duplicates. -/
theorem C6_thm (e1 e2 : Entry)
    (hhash : get_content_hash e1 ≠ get_content_hash e2)
    (hnone : ∀ k ∈ comparison_keys, (lookupVal e1 k).isSome = true →
        (lookupVal e2 k).isSome = true →
        lookupVal e1 k = some VNone ∧ lookupVal e2 k = some VNone)
    (hshared : ∃ k ∈ comparison_keys,
        (lookupVal e1 k).isSome = true ∧ (lookupVal e2 k).isSome = true) :
    is_duplicate_entry e1 [e2] = (true, e2) := by
  have aux := fuzzyScore_aux e1 e2 comparison_keys 0 0 hnone (by norm_num)
  have hcount : 0 < comparison_keys.countP
      (fun k => (lookupVal e1 k).isSome && (lookupVal e2 k).isSome) := by
    rw [List.countP_pos_iff]
    obtain ⟨k, hk, h1, h2⟩ := hshared
    exact ⟨k, hk, by simp [h1, h2]⟩
  have hm : 0 < (fuzzyScore e1 e2).2 := by
    unfold fuzzyScore
    rw [aux.2]
    omega
  have hdiv : (fuzzyScore e1 e2).1 / ((fuzzyScore e1 e2).2 : Rat) = 1 := by
    have hne : ((fuzzyScore e1 e2).2 : Rat) ≠ 0 := by
      exact_mod_cast Nat.pos_iff_ne_zero.mp hm
    unfold fuzzyScore at *
    rw [aux.1]
    exact div_self hne
  have hcond : (decide (0 < (fuzzyScore e1 e2).2) &&
      decide (similarity_threshold <
        (fuzzyScore e1 e2).1 / ((fuzzyScore e1 e2).2 : Rat))) = true := by
    rw [hdiv]
    have hth : similarity_threshold < 1 := by norm_num [similarity_threshold]
    simp [hm, hth]
  have hbeq : (get_content_hash e2 == get_content_hash e1) = false := by
    simp only [beq_eq_false_iff_ne]
    exact fun hh => hhash hh.symm
  have hfind1 : List.find?
      (fun entry => get_content_hash entry == get_content_hash e1) [e2] = none := by
    simp [List.find?, hbeq]
  have hfind2 : List.find? (fun entry =>
      decide (0 < (fuzzyScore e1 entry).2) &&
      decide (similarity_threshold <
        (fuzzyScore e1 entry).1 / ((fuzzyScore e1 entry).2 : Rat))) [e2] =
        some e2 := by
    simp [List.find?, hcond]
  simp only [is_duplicate_entry, hfind1, hfind2]

/-- C6 witness input: `{"role": None, "p": "1"}`. -/
def wA : Entry := [("role", VNone), ("p", VStr "1")]

/-- C6 witness input: `{"role": None, "q": "2"}`. -/
def wB : Entry := [("role", VNone), ("q", VStr "2")]

/-- Witness for C6 on entries sharing only a `None`-valued `role` field. -/
theorem C6_witness :
    get_content_hash wA ≠ get_content_hash wB ∧
    (∀ k ∈ comparison_keys, (lookupVal wA k).isSome = true →
        (lookupVal wB k).isSome = true →
        lookupVal wA k = some VNone ∧ lookupVal wB k = some VNone) ∧
    (∃ k ∈ comparison_keys,
        (lookupVal wA k).isSome = true ∧ (lookupVal wB k).isSome = true) ∧
    is_duplicate_entry wA [wB] = (true, wB) :=
  ⟨by decide, by decide, by decide,
    C6_thm wA wB (by decide) (by decide) (by decide)⟩

/-- The merge always appends exactly the parsed experience entries to the
canonical experience collection (when the cv branch is skipped, the parsed
experience list is empty and nothing changes). -/
theorem merge_experience_eq (parsed : Bundle) (hint : Option String) (kb : KB) :
    (merge_into_kb parsed hint kb).1.experience =
      kb.experience ++ parsed.experience := by
  unfold merge_into_kb
  dsimp only
  split_ifs <;> simp_all [List.isEmpty_iff]

/-- The empty canonical store. -/
def kbEmpty : KB := ⟨none, none, [], [], [], []⟩

/-- A staged record for `bX` that has been rejected (with reason and
timestamp). -/
def recRejected : StagedRecord :=
  ⟨bX, ⟨0, [], Status.rejected, none, some 1, some "bad"⟩⟩

/-- A staging store holding one rejected record. -/
def stRejected : Store := [("sid", recRejected)]

/-- C1 is false as stated: starting from a store whose only record is
rejected, the single subsequent operation `approve("sid")` succeeds (the
approve guard only checks for `approved`) and merges the rejected bundle's
experience entry into the canonical store. -/
theorem C1_counterexample :
    (lookupStore stRejected "sid").map (fun r => r.metadata.status) =
      some Status.rejected ∧
    kbEmpty.experience = [] ∧
    approve_staged_entry "sid" 2 stRejected kbEmpty =
      Except.ok (⟨"sid", 2, ⟨1, 0, 0, 0⟩⟩,
        [("sid", ⟨bX, ⟨0, [], Status.approved, some 2, some 1, some "bad"⟩⟩)],
        ⟨some "", none, [[("title", VStr "X")]], [], [], []⟩) :=
  ⟨rfl, rfl, rfl⟩

/-- C1 amended: rejection itself is not a merge — `reject_staged_entry`
never touches the canonical store (its semantics do not involve `KB` at all)
and merely stamps the record rejected, retaining the content; but `rejected`
is not terminal against approval: a subsequent `approve` on the rejected id
succeeds, flips the record to `approved`, and merges the content bundle
(appending its experience entries to the canonical collection). -/
theorem C1_thm (st : Store) (kb : KB) (stage_id : String) (r : StagedRecord)
    (reason : String) (now1 now2 : Int)
    (hlook : lookupStore st stage_id = some r) :
    (r.metadata.status ≠ Status.rejected →
      reject_staged_entry stage_id reason now1 st =
        Except.ok (⟨stage_id, now1, reason⟩,
          storeInsert st stage_id ⟨r.content,
            { r.metadata with
              status := Status.rejected
              rejected_at := some now1
              rejection_reason := some reason }⟩)) ∧
    (r.metadata.status = Status.rejected →
      approve_staged_entry stage_id now2 st kb =
        Except.ok (⟨stage_id, now2, (merge_into_kb r.content none kb).2⟩,
          storeInsert st stage_id ⟨r.content,
            { r.metadata with
              status := Status.approved
              approved_at := some now2 }⟩,
          (merge_into_kb r.content none kb).1)) ∧
    (merge_into_kb r.content none kb).1.experience =
      kb.experience ++ r.content.experience := by
  refine ⟨?_, ?_, merge_experience_eq r.content none kb⟩
  · intro h
    simp [reject_staged_entry, get_staged_entry, hlook, h]
  · intro h
    have hne : ¬(r.metadata.status = Status.approved) := by
      rw [h]; intro hc; cases hc
    simp [approve_staged_entry, get_staged_entry, hlook, hne]

/-- Witness for C1 at the concrete rejected store. -/
theorem C1_witness :
    lookupStore stRejected "sid" = some recRejected ∧
    recRejected.metadata.status = Status.rejected ∧
    approve_staged_entry "sid" 2 stRejected kbEmpty =
      Except.ok (⟨"sid", 2, (merge_into_kb recRejected.content none kbEmpty).2⟩,
        storeInsert stRejected "sid" ⟨recRejected.content,
          { recRejected.metadata with
            status := Status.approved
            approved_at := some 2 }⟩,
        (merge_into_kb recRejected.content none kbEmpty).1) :=
  ⟨rfl, rfl,
    (C1_thm stRejected kbEmpty "sid" recRejected "r" 0 2 rfl).2.1 rfl⟩

/-- A staging store holding one approved record. -/
def stApproved : Store := [("aid", recApproved0)]

/-- C2 is false as stated: cross re-transitions between the two terminal
states are not errors — approving a rejected record succeeds, and rejecting
an approved record succeeds. -/
theorem C2_counterexample :
    (lookupStore stRejected "sid").map (fun r => r.metadata.status) =
      some Status.rejected ∧
    (lookupStore stApproved "aid").map (fun r => r.metadata.status) =
      some Status.approved ∧
    (approve_staged_entry "sid" 2 stRejected kbEmpty).isOk = true ∧
    (reject_staged_entry "aid" "why" 2 stApproved).isOk = true :=
  ⟨rfl, rfl, rfl, rfl⟩

/-- C2 amended: only same-state re-transitions are errors. `approve` on an
already-approved id fails with `InvalidState` (raising before any mutation,
so the record is unchanged), and `reject` on an already-rejected id likewise;
but `approve` on a rejected record and `reject` on an approved record both
succeed and overwrite the status. -/
theorem C2_thm (st : Store) (kb : KB) (stage_id : String) (r : StagedRecord)
    (reason : String) (now : Int)
    (hlook : lookupStore st stage_id = some r) :
    (r.metadata.status = Status.approved →
      approve_staged_entry stage_id now st kb =
        Except.error StagingErr.invalidState) ∧
    (r.metadata.status = Status.rejected →
      reject_staged_entry stage_id reason now st =
        Except.error StagingErr.invalidState) ∧
    (r.metadata.status = Status.rejected →
      (approve_staged_entry stage_id now st kb).isOk = true) ∧
    (r.metadata.status = Status.approved →
      (reject_staged_entry stage_id reason now st).isOk = true) := by
  refine ⟨?_, ?_, ?_, ?_⟩
  · intro h
    simp [approve_staged_entry, get_staged_entry, hlook, h]
  · intro h
    simp [reject_staged_entry, get_staged_entry, hlook, h]
  · intro h
    have hne : ¬(r.metadata.status = Status.approved) := by
      rw [h]; intro hc; cases hc
    simp [approve_staged_entry, get_staged_entry, hlook, hne, Except.isOk,
      Except.toBool]
  · intro h
    have hne : ¬(r.metadata.status = Status.rejected) := by
      rw [h]; intro hc; cases hc
    simp [reject_staged_entry, get_staged_entry, hlook, hne, Except.isOk,
      Except.toBool]

/-- Witness for C2 at the concrete approved store. -/
theorem C2_witness :
    lookupStore stApproved "aid" = some recApproved0 ∧
    recApproved0.metadata.status = Status.approved ∧
    approve_staged_entry "aid" 5 stApproved kbEmpty =
      Except.error StagingErr.invalidState ∧
    (reject_staged_entry "aid" "w" 5 stApproved).isOk = true :=
  ⟨rfl, rfl,
    (C2_thm stApproved kbEmpty "aid" recApproved0 "w" 5 rfl).1 rfl,
    (C2_thm stApproved kbEmpty "aid" recApproved0 "w" 5 rfl).2.2.2 rfl⟩

/-- A record that was approved long ago (day 0) and then rejected recently
(day 99, in seconds); its current status is rejected.  Reachable by the
code's own operations because terminal states are not mutually exclusive. -/
def rBoth : StagedRecord :=
  ⟨bX, ⟨0, [], Status.rejected, some 0, some 8553600, some "r"⟩⟩

/-- C8 is false as stated: at day 100, with `max_age` 30 days, cleanup
deletes this rejected record although its transition into its current
terminal status (`rejected_at`, one day old) is not older than `max_age` —
the code reads `approved_at or rejected_at`, preferring the stale approval
timestamp. -/
theorem C8_counterexample :
    rBoth.metadata.status = Status.rejected ∧
    rBoth.metadata.rejected_at = some 8553600 ∧
    daysBetween 8553600 8640000 ≤ 30 ∧
    cleanup_old_entries 30 8640000 [("x", rBoth)] = (1, []) :=
  ⟨rfl, rfl, by decide, by decide⟩

/-- C8 amended: cleanup never removes a pending record regardless of age; it
removes a record only when its status is terminal and its processed
timestamp — `approved_at` when present, else `rejected_at` — is strictly more
than `max_age` whole days old; and the returned count is exactly the number
of records removed. -/
theorem C8_thm (max_age_days now : Int) (st : Store) :
    (∀ i r, (i, r) ∈ st → r.metadata.status = Status.pending →
        (i, r) ∈ (cleanup_old_entries max_age_days now st).2) ∧
    (∀ i r, (i, r) ∈ st →
        (i, r) ∉ (cleanup_old_entries max_age_days now st).2 →
        r.metadata.status ≠ Status.pending ∧
        ∃ p, processedAt r.metadata = some p ∧
          max_age_days < daysBetween p now) ∧
    st.length = (cleanup_old_entries max_age_days now st).1 +
        (cleanup_old_entries max_age_days now st).2.length := by
  induction st with
  | nil => exact ⟨by simp, by simp [cleanup_old_entries], by simp [cleanup_old_entries]⟩
  | cons hd tl ih =>
    obtain ⟨i0, r0⟩ := hd
    obtain ⟨ih1, ih2, ih3⟩ := ih
    cases hrem : shouldRemove max_age_days now r0 with
    | true =>
      refine ⟨?_, ?_, ?_⟩
      · intro i r hmem hpend
        rcases List.mem_cons.mp hmem with heq | htl
        · obtain ⟨hi, hr⟩ := Prod.mk.injEq .. ▸ heq
          exfalso
          rw [Prod.mk.injEq] at heq
          rw [← heq.2] at hrem
          rw [shouldRemove, if_pos hpend] at hrem
          cases hrem
        · simp only [cleanup_old_entries, hrem]
          exact ih1 i r htl hpend
      · intro i r hmem hnot
        rcases List.mem_cons.mp hmem with heq | htl
        · rw [Prod.mk.injEq] at heq
          rw [← heq.2] at hrem
          rw [shouldRemove] at hrem
          constructor
          · intro hpend
            rw [if_pos hpend] at hrem
            cases hrem
          · by_cases hpend : r.metadata.status = Status.pending
            · rw [if_pos hpend] at hrem
              cases hrem
            · rw [if_neg hpend] at hrem
              cases hp : processedAt r.metadata with
              | none => rw [hp] at hrem; cases hrem
              | some p =>
                rw [hp] at hrem
                exact ⟨p, rfl, of_decide_eq_true hrem⟩
        · simp only [cleanup_old_entries, hrem] at hnot
          exact ih2 i r htl hnot
      · have hcl : cleanup_old_entries max_age_days now ((i0, r0) :: tl) =
            ((cleanup_old_entries max_age_days now tl).1 + 1,
             (cleanup_old_entries max_age_days now tl).2) := by
          simp [cleanup_old_entries, hrem]
        rw [hcl]
        dsimp only
        simp only [List.length_cons]
        omega
    | false =>
      refine ⟨?_, ?_, ?_⟩
      · intro i r hmem hpend
        rcases List.mem_cons.mp hmem with heq | htl
        · simp only [cleanup_old_entries, hrem]
          exact heq ▸ List.mem_cons_self _ _
        · simp only [cleanup_old_entries, hrem]
          exact List.mem_cons_of_mem _ (ih1 i r htl hpend)
      · intro i r hmem hnot
        simp only [cleanup_old_entries, hrem] at hnot
        rcases List.mem_cons.mp hmem with heq | htl
        · exact absurd (heq ▸ List.mem_cons_self _ _) hnot
        · exact ih2 i r htl (fun hc => hnot (List.mem_cons_of_mem _ hc))
      · have hcl : cleanup_old_entries max_age_days now ((i0, r0) :: tl) =
            ((cleanup_old_entries max_age_days now tl).1,
             (i0, r0) :: (cleanup_old_entries max_age_days now tl).2) := by
          simp [cleanup_old_entries, hrem]
        rw [hcl]
        dsimp only
        simp only [List.length_cons]
        omega

/-- A pending staged record. -/
def rPend : StagedRecord := ⟨bX, ⟨0, [], Status.pending, none, none, none⟩⟩

/-- Witness for C8: a pending record survives cleanup at any age. -/
theorem C8_witness :
    ("p", rPend) ∈ ([("p", rPend)] : Store) ∧
    rPend.metadata.status = Status.pending ∧
    ("p", rPend) ∈ (cleanup_old_entries 30 999999999 [("p", rPend)]).2 :=
  ⟨by simp, rfl,
    (C8_thm 30 999999999 [("p", rPend)]).1 "p" rPend (by simp) rfl⟩

/-- The older entry of the repo's `test_deduplication_with_merging`. -/
def tOld : Entry :=
  [("title", VStr "Software Engineer"),
   ("skills", VList ["Python", "Java"]),
   ("timestamp", VTime 1)]

/-- The newer entry of the repo's `test_deduplication_with_merging`. -/
def tNew : Entry :=
  [("title", VStr "Sr. Software Engineer"),
   ("skills", VList ["Python", "Kubernetes"]),
   ("timestamp", VTime 2)]

set_option maxRecDepth 10000 in
/-- C4 evaluated at the repo's own test input
(`test_deduplication_with_merging`): the two entries fuzzy-match and collapse
to one, but because the incoming entry has the newer timestamp it becomes the
base, and the list merge unions the incoming skills with themselves — "Java"
from the older entry is dropped, while the test (and the claim) expect the
union `{"Python", "Java", "Kubernetes"}` of both skill lists. -/
theorem C4_thm :
    lookupVal tOld "skills" = some (VList ["Python", "Java"]) ∧
    (deduplicate_entries [tOld, tNew]).toOption =
      some [[("title", VStr "Sr. Software Engineer"),
        ("skills", VList ["Kubernetes", "Python"]),
        ("timestamp", VTime 2)]] :=
  ⟨rfl, by decide⟩

end RRP
